import Mathlib

/-!
Verification of the codegate muxing adapter (`src/codegate/muxing/adapter.py`)
and recording pipeline (`src/codegate/db/connection.py`).

The Python source is shallowly embedded: JSON values become an inductive
type, Python dicts become association lists with Python's insertion-order
update semantics, `json.loads` / `json.dumps` become an executable parser
and printer, exceptions escaping a function become `Option.none` (or a
dedicated `raised` constructor), and the asynchronous recording pipeline
becomes explicit state passing over an event trace.  External library
calls (litellm model validation, the Ollama normalizer, the FIM dedup
cache) are abstracted as parameters, since their code is outside this
repository.
-/

/-- JSON values, the embedding of Python objects produced by `json.loads`.
Numbers are restricted to integers (the source never manipulates float
fields on the paths under verification). -/
inductive JVal where
  | null : JVal
  | bool : Bool → JVal
  | num : Int → JVal
  | str : String → JVal
  | arr : List JVal → JVal
  | obj : List (String × JVal) → JVal
deriving Repr, Inhabited

mutual

/-- Decidable equality for `JVal` (manual, because of the nested lists). -/
def JVal.beq : JVal → JVal → Bool
  | .null, .null => true
  | .bool a, .bool b => a == b
  | .num a, .num b => a == b
  | .str a, .str b => a == b
  | .arr xs, .arr ys => JVal.beqList xs ys
  | .obj xs, .obj ys => JVal.beqFields xs ys
  | _, _ => false

/-- Elementwise equality of JSON arrays. -/
def JVal.beqList : List JVal → List JVal → Bool
  | [], [] => true
  | x :: xs, y :: ys => JVal.beq x y && JVal.beqList xs ys
  | _, _ => false

/-- Elementwise equality of JSON object field lists. -/
def JVal.beqFields : List (String × JVal) → List (String × JVal) → Bool
  | [], [] => true
  | (k, v) :: xs, (l, w) :: ys => k == l && JVal.beq v w && JVal.beqFields xs ys
  | _, _ => false

end

/-- Python truthiness of a JSON value: `None`, `False`, `0`, `""`, `[]`
and the empty dict are falsy, everything else is truthy. -/
def JVal.isFalsy : JVal → Bool
  | .null => true
  | .bool b => !b
  | .num n => n == 0
  | .str s => s == ""
  | .arr xs => xs.isEmpty
  | .obj fs => fs.isEmpty

/-- Python `d[k]` lookup on a dict embedded as an association list:
first binding wins (dicts never hold duplicate keys). -/
def dictGet : List (String × JVal) → String → Option JVal
  | [], _ => none
  | (k, v) :: rest, key => if k = key then some v else dictGet rest key

/-- Python `d[k] = v`: update the existing binding in place (keeping its
position) or append a new one, exactly Python's insertion-order
semantics. -/
def dictSet : List (String × JVal) → String → JVal → List (String × JVal)
  | [], key, v => [(key, v)]
  | (k, w) :: rest, key, v =>
    if k = key then (key, v) :: rest else (k, w) :: dictSet rest key v

/-- Python `d.get(k, default)`. -/
def dictGetD (fs : List (String × JVal)) (key : String) (dflt : JVal) : JVal :=
  match dictGet fs key with
  | some v => v
  | none => dflt

/-- Left brace character, written by code point to keep it out of string
literals. -/
def lbrace : Char := Char.ofNat 123

/-- Right brace character. -/
def rbrace : Char := Char.ofNat 125

/-- Whitespace skipping used by the JSON parser. -/
def skipWs : List Char → List Char
  | [] => []
  | c :: cs => if c = ' ' ∨ c = '\t' ∨ c = '\n' ∨ c = '\r' then skipWs cs else c :: cs

/-- Hex digit value of a character, for `\uXXXX` string escapes. -/
def hexVal (c : Char) : Option Nat :=
  if '0' ≤ c ∧ c ≤ '9' then some (c.toNat - 48)
  else if 'a' ≤ c ∧ c ≤ 'f' then some (c.toNat - 87)
  else if 'A' ≤ c ∧ c ≤ 'F' then some (c.toNat - 55)
  else none

/-- Parse the body of a JSON string literal (the opening quote already
consumed), returning the decoded string and the rest of the input. -/
def parseStringBody : List Char → Option (String × List Char)
  | [] => none
  | c :: rest =>
    if c = '"' then some ("", rest)
    else if c = '\\' then
      match rest with
      | [] => none
      | e :: rest2 =>
        if e = 'u' then
          match rest2 with
          | a :: b :: c2 :: d :: rest3 =>
            match hexVal a, hexVal b, hexVal c2, hexVal d with
            | some ha, some hb, some hc, some hd =>
              (parseStringBody rest3).map fun p =>
                (String.singleton (Char.ofNat (ha * 4096 + hb * 256 + hc * 16 + hd)) ++ p.1, p.2)
            | _, _, _, _ => none
          | _ => none
        else
          match
            (if e = '"' then some '"'
             else if e = '\\' then some '\\'
             else if e = '/' then some '/'
             else if e = 'n' then some '\n'
             else if e = 't' then some '\t'
             else if e = 'r' then some '\r'
             else if e = 'b' then some (Char.ofNat 8)
             else if e = 'f' then some (Char.ofNat 12)
             else none) with
          | some d => (parseStringBody rest2).map fun p => (String.singleton d ++ p.1, p.2)
          | none => none
    else (parseStringBody rest).map fun p => (String.singleton c ++ p.1, p.2)

/-- Accumulate decimal digits. -/
def digitsAcc (acc : Nat) : List Char → Nat × List Char
  | c :: cs => if c.isDigit then digitsAcc (acc * 10 + (c.toNat - 48)) cs else (acc, c :: cs)
  | [] => (acc, [])

/-- Parse an integer JSON number (floats are out of the modelled subset). -/
def parseIntLit : List Char → Option (Int × List Char)
  | [] => none
  | c :: cs =>
    if c = '-' then
      match cs with
      | d :: ds =>
        if d.isDigit then
          let p := digitsAcc (d.toNat - 48) ds
          some (-(p.1 : Int), p.2)
        else none
      | [] => none
    else if c.isDigit then
      let p := digitsAcc (c.toNat - 48) cs
      some ((c.toNat - 48 : Nat) * 0 + (p.1 : Int), p.2)
    else none

mutual

/-- Fuel-indexed JSON value parser, the embedding of Python `json.loads`
(restricted to the integer-number subset; duplicate object keys keep the
last value, as in Python). -/
def parseV : Nat → List Char → Option (JVal × List Char)
  | 0, _ => none
  | f + 1, cs =>
    match skipWs cs with
    | [] => none
    | c :: rest =>
      if c = lbrace then parseObjItems f rest
      else if c = '[' then (parseArrItems f rest).map fun p => (JVal.arr p.1, p.2)
      else if c = '"' then (parseStringBody rest).map fun p => (JVal.str p.1, p.2)
      else if c = 't' then
        match rest with
        | 'r' :: 'u' :: 'e' :: r => some (JVal.bool true, r)
        | _ => none
      else if c = 'f' then
        match rest with
        | 'a' :: 'l' :: 's' :: 'e' :: r => some (JVal.bool false, r)
        | _ => none
      else if c = 'n' then
        match rest with
        | 'u' :: 'l' :: 'l' :: r => some (JVal.null, r)
        | _ => none
      else (parseIntLit (c :: rest)).map fun p => (JVal.num p.1, p.2)

/-- Parse array items, positioned just after the opening bracket. -/
def parseArrItems : Nat → List Char → Option (List JVal × List Char)
  | 0, _ => none
  | f + 1, cs =>
    match skipWs cs with
    | ']' :: r => some ([], r)
    | cs2 =>
      match parseV f cs2 with
      | none => none
      | some (v, r) => parseArrRest f [v] r

/-- Parse the remaining array items after at least one has been read. -/
def parseArrRest : Nat → List JVal → List Char → Option (List JVal × List Char)
  | 0, _, _ => none
  | f + 1, acc, cs =>
    match skipWs cs with
    | ']' :: r => some (acc, r)
    | ',' :: r =>
      match parseV f r with
      | none => none
      | some (v, r2) => parseArrRest f (acc ++ [v]) r2
    | _ => none

/-- Parse object fields, positioned just after the opening brace. -/
def parseObjItems : Nat → List Char → Option (JVal × List Char)
  | 0, _ => none
  | f + 1, cs =>
    match skipWs cs with
    | c :: r =>
      if c = rbrace then some (JVal.obj [], r)
      else if c = '"' then
        match parseStringBody r with
        | none => none
        | some (k, r2) =>
          match skipWs r2 with
          | ':' :: r3 =>
            match parseV f r3 with
            | none => none
            | some (v, r4) => parseObjRest f [(k, v)] r4
          | _ => none
      else none
    | [] => none

/-- Parse the remaining object fields after at least one has been read. -/
def parseObjRest : Nat → List (String × JVal) → List Char → Option (JVal × List Char)
  | 0, _, _ => none
  | f + 1, acc, cs =>
    match skipWs cs with
    | c :: r =>
      if c = rbrace then some (JVal.obj acc, r)
      else if c = ',' then
        match skipWs r with
        | '"' :: r2 =>
          match parseStringBody r2 with
          | none => none
          | some (k, r3) =>
            match skipWs r3 with
            | ':' :: r4 =>
              match parseV f r4 with
              | none => none
              | some (v, r5) => parseObjRest f (dictSet acc k v) r5
            | _ => none
        | _ => none
      else none
    | [] => none

end

/-- Embedding of Python `json.loads`: `none` models a raised
`JSONDecodeError`. -/
def jsonParse (s : String) : Option JVal :=
  match parseV (4 * s.length + 8) s.data with
  | some (v, rest) => if skipWs rest = [] then some v else none
  | none => none

/-- One character of Python `json.dumps` output with the default
`ensure_ascii=True`: quote, backslash, control and non-ASCII characters
are escaped (code points above the BMP are approximated by a single
`\uXXXX` escape). -/
def escapeChar (c : Char) : String :=
  if c = '"' then "\\\""
  else if c = '\\' then "\\\\"
  else if c = '\n' then "\\n"
  else if c = '\t' then "\\t"
  else if c = '\r' then "\\r"
  else if c = Char.ofNat 8 then "\\b"
  else if c = Char.ofNat 12 then "\\f"
  else if c.toNat < 32 ∨ 126 < c.toNat then
    let hx := fun (n : Nat) => if n < 10 then Char.ofNat (48 + n) else Char.ofNat (87 + (n - 10))
    "\\u" ++ String.mk [hx (c.toNat / 4096 % 16), hx (c.toNat / 256 % 16),
                        hx (c.toNat / 16 % 16), hx (c.toNat % 16)]
  else String.singleton c

/-- A JSON string literal as `json.dumps` prints it. -/
def quoteStr (s : String) : String :=
  "\"" ++ s.data.foldl (fun acc c => acc ++ escapeChar c) "" ++ "\""

mutual

/-- Embedding of Python `json.dumps` with its default separators
(a comma-space between items, a colon-space inside fields). -/
def jsonDumps : JVal → String
  | .null => "null"
  | .bool true => "true"
  | .bool false => "false"
  | .num n => toString n
  | .str s => quoteStr s
  | .arr xs => "[" ++ jsonDumpsItems xs ++ "]"
  | .obj fs => String.singleton lbrace ++ jsonDumpsFields fs ++ String.singleton rbrace

/-- Array items of `json.dumps` output. -/
def jsonDumpsItems : List JVal → String
  | [] => ""
  | [x] => jsonDumps x
  | x :: y :: rest => jsonDumps x ++ ", " ++ jsonDumpsItems (y :: rest)

/-- Object fields of `json.dumps` output. -/
def jsonDumpsFields : List (String × JVal) → String
  | [] => ""
  | [(k, v)] => quoteStr k ++ ": " ++ jsonDumps v
  | (k, v) :: p :: rest => quoteStr k ++ ": " ++ jsonDumps v ++ ", " ++ jsonDumpsFields (p :: rest)

end

/-- The closed provider enumeration from `codegate.db.models.ProviderType`. -/
inductive ProviderType where
  | ollama : ProviderType
  | openai : ProviderType
  | anthropic : ProviderType
  | llamacpp : ProviderType
  | openrouter : ProviderType
deriving Repr, DecidableEq, Inhabited

/-- The `litellm` `Delta` part of a canonical chunk, as constructed in
`StreamChunkFormatter._format_antropic`: `content=None` is representable
because `dict.get("text", "")` can return a JSON null. -/
structure Delta where
  content : Option String
  role : String
deriving Repr, DecidableEq, Inhabited

/-- One `litellm` `StreamingChoices` entry as built by the Anthropic
formatter (`logprobs` is always `None` there and hence dropped by the
`exclude_none` dump). -/
structure StreamingChoices where
  finish_reason : Option String
  index : Nat
  delta : Delta
deriving Repr, DecidableEq, Inhabited

/-- The canonical chat-completion chunk the Anthropic formatter builds
(`litellm.ModelResponse` restricted to the fields the source sets). -/
structure CanonicalChunk where
  id : String
  model : String
  object : String
  choices : List StreamingChoices
deriving Repr, DecidableEq, Inhabited

/-- JSON shape of a canonical chunk under
`model_dump_json(exclude_none=True, exclude_unset=True)`: fields that are
`None` are omitted, set fields appear. -/
def canonicalToJVal (c : CanonicalChunk) : JVal :=
  JVal.obj
    [("id", JVal.str c.id),
     ("model", JVal.str c.model),
     ("object", JVal.str c.object),
     ("choices", JVal.arr (c.choices.map fun ch =>
        JVal.obj
          ((match ch.finish_reason with
            | some fr => [("finish_reason", JVal.str fr)]
            | none => []) ++
           [("index", JVal.num (ch.index : Int)),
            ("delta", JVal.obj
              ((match ch.delta.content with
                | some s => [("content", JVal.str s)]
                | none => []) ++
               [("role", JVal.str ch.delta.role)]))])))]

/-- Serialized form of the canonical chunk the Anthropic formatter emits. -/
def dumpCanonical (c : CanonicalChunk) : String :=
  jsonDumps (canonicalToJVal c)

/-- External collaborators of the chunk formatters, abstracted because
their code (the `litellm` model validator/serializer and the Ollama
normalizer) lives outside this repository.  `parse` embeds `json.loads`;
`dumpModelResponse` embeds `ModelResponse(**d).model_dump_json(...)` with
`none` meaning the construction raised; `normalizeOllama` embeds
`ChatResponse(**d)` followed by `OLlamaToModel.normalize_chunk` and the
dump, with `none` meaning some step raised. -/
structure ChunkCodec where
  parse : String → Option JVal
  dumpModelResponse : JVal → Option String
  normalizeOllama : JVal → Option String

/-- Default instantiation used in closed examples: real `json.loads`, and
library steps that succeed exactly on JSON objects (constructing a
pydantic model from `**chunk_dict` requires a mapping). -/
def defaultCodec : ChunkCodec where
  parse := jsonParse
  dumpModelResponse := fun v =>
    match v with
    | JVal.obj _ => some (jsonDumps v)
    | _ => none
  normalizeOllama := fun v =>
    match v with
    | JVal.obj _ => some (jsonDumps v)
    | _ => none

/-- Whether `pre` is a prefix of `s`, characterwise. -/
def listStartsWith : List Char → List Char → Bool
  | [], _ => true
  | _ :: _, [] => false
  | p :: ps, c :: cs => p = c && listStartsWith ps cs

/-- Fuel-indexed worker for Python `str.split` with a non-empty
separator: left-to-right, non-overlapping matches; `cur` holds the
current segment reversed. -/
def pySplitAux (sep : List Char) : Nat → List Char → List Char → List (List Char)
  | 0, cur, s => [cur.reverse ++ s]
  | f + 1, cur, s =>
    match s with
    | [] => [cur.reverse]
    | c :: rest =>
      if listStartsWith sep s then
        cur.reverse :: pySplitAux sep f [] (s.drop sep.length)
      else pySplitAux sep f (c :: cur) rest

/-- Embedding of Python `str.split(sep)` for a non-empty separator. -/
def pySplit (sep : String) (s : String) : List String :=
  (pySplitAux sep.data (s.length + 1) [] s.data).map fun cs => String.mk cs

/-- ASCII whitespace in the sense of Python `str.strip` (the unicode
whitespace extension is outside the modelled subset). -/
def isPyWs (c : Char) : Bool :=
  c = ' ' || c = '\t' || c = '\n' || c = '\r' || c = Char.ofNat 11 || c = Char.ofNat 12

/-- Drop leading whitespace characters. -/
def dropWsLeft : List Char → List Char
  | [] => []
  | c :: cs => if isPyWs c then dropWsLeft cs else c :: cs

/-- Embedding of Python `str.strip()`. -/
def pyStrip (s : String) : String :=
  String.mk ((dropWsLeft ((dropWsLeft s.data).reverse)).reverse)

namespace StreamChunkFormatter

/-- Result of `_format_antropic` before serialization.  `raised` models an
exception escaping the method (the `split("data:")[1]` indexing happens
outside the `try` block); `empty` is the EMPTY sentinel `""`;
`passthrough` is the caught-exception fallback `cleaned_chunk.strip()`. -/
inductive AnthropicResult where
  | raised : AnthropicResult
  | empty : AnthropicResult
  | canonical : CanonicalChunk → AnthropicResult
  | passthrough : String → AnthropicResult
deriving Repr, DecidableEq, Inhabited

/-- Embedding of `chunk.split("data:")[1]`: `none` models the
`IndexError` raised when the chunk does not contain `"data:"`. -/
def splitData (chunk : String) : Option String :=
  (pySplit "data:" chunk).get? 1

/-- Embedding of `_format_ollama`.  The whole body sits inside
`try/except`, so the method never raises: parse the raw chunk and run the
external normalizer; on any failure return the chunk unchanged. -/
def format_ollama (codec : ChunkCodec) (chunk : String) : String :=
  match codec.parse chunk with
  | none => chunk
  | some v =>
    match codec.normalizeOllama v with
    | none => chunk
    | some s => s

/-- Embedding of `_format_openai`.  The prefix strip happens before the
`try` block, so a chunk without `"data:"` raises (`none`); afterwards any
parse or validation failure falls back to the cleaned chunk. -/
def format_openai (codec : ChunkCodec) (chunk : String) : Option String :=
  match splitData chunk with
  | none => none
  | some c =>
    let cleaned := pyStrip c
    some
      (match codec.parse cleaned with
       | none => cleaned
       | some v =>
         match codec.dumpModelResponse v with
         | none => cleaned
         | some s => s)

/-- Embedding of
`chunk_dict.get("delta", {}) or chunk_dict.get("content_block", {})`:
Python `or` takes the right operand when the left is falsy. -/
def contentContainer (fs : List (String × JVal)) : JVal :=
  let d := dictGetD fs "delta" (JVal.obj [])
  if d.isFalsy then dictGetD fs "content_block" (JVal.obj []) else d

/-- Body of `_format_antropic` after a successful `json.loads` of a JSON
object: read the `type` discriminator, pick the content container, and
either skip (EMPTY), build the canonical chunk, or fall through to the
exception handler when a `.get` target is not a dict or the text value
cannot validate as `Delta.content`. -/
def anthropicFromDict (freshId : String) (cleaned : String)
    (fs : List (String × JVal)) : AnthropicResult :=
  let finish : Option String :=
    match dictGet fs "type" with
    | some (JVal.str s) => if s = "message_stop" then some "stop" else none
    | _ => none
  let container := contentContainer fs
  if container.isFalsy then AnthropicResult.empty
  else
    match container with
    | JVal.obj cfs =>
      (match dictGet cfs "text" with
       | none => AnthropicResult.canonical
           { id := "anthropic-chat-" ++ freshId,
             model := "anthropic-muxed-model",
             object := "chat.completion.chunk",
             choices := [{ finish_reason := finish, index := 0,
                           delta := { content := some "", role := "assistant" } }] }
       | some (JVal.str s) => AnthropicResult.canonical
           { id := "anthropic-chat-" ++ freshId,
             model := "anthropic-muxed-model",
             object := "chat.completion.chunk",
             choices := [{ finish_reason := finish, index := 0,
                           delta := { content := some s, role := "assistant" } }] }
       | some JVal.null => AnthropicResult.canonical
           { id := "anthropic-chat-" ++ freshId,
             model := "anthropic-muxed-model",
             object := "chat.completion.chunk",
             choices := [{ finish_reason := finish, index := 0,
                           delta := { content := none, role := "assistant" } }] }
       | some _ => AnthropicResult.passthrough (pyStrip cleaned))
    | _ => AnthropicResult.passthrough (pyStrip cleaned)

/-- Embedding of `_format_antropic`.  The prefix strip is outside the
`try` block (missing `"data:"` raises); inside it, a parse failure or a
non-dict payload falls back to the trimmed cleaned chunk. -/
def format_antropic (parse : String → Option JVal) (freshId : String)
    (chunk : String) : AnthropicResult :=
  match splitData chunk with
  | none => AnthropicResult.raised
  | some c =>
    let cleaned := pyStrip c
    match parse cleaned with
    | none => AnthropicResult.passthrough (pyStrip cleaned)
    | some (JVal.obj fs) => anthropicFromDict freshId cleaned fs
    | some _ => AnthropicResult.passthrough (pyStrip cleaned)

/-- String-level rendering of an Anthropic formatter result, as the
Python method returns it: `none` is a raised exception, EMPTY is `""`,
the canonical chunk is serialized. -/
def renderAnthropic : AnthropicResult → Option String
  | AnthropicResult.raised => none
  | AnthropicResult.empty => some ""
  | AnthropicResult.canonical c => some (dumpCanonical c)
  | AnthropicResult.passthrough s => some s

/-- Embedding of `StreamChunkFormatter.format`: dispatch on the provider
type over the fixed table (each of the five enum members is registered,
so the unsupported-provider branch is unreachable on this closed
enumeration).  `none` models a formatter raising; `freshId` stands for
the `uuid.uuid4()` drawn by the Anthropic branch. -/
def format (codec : ChunkCodec) (freshId : String) (chunk : String)
    (dest_prov : ProviderType) : Option String :=
  match dest_prov with
  | ProviderType.ollama => some (format_ollama codec chunk)
  | ProviderType.openai => format_openai codec chunk
  | ProviderType.llamacpp => format_openai codec chunk
  | ProviderType.openrouter => format_openai codec chunk
  | ProviderType.anthropic => renderAnthropic (format_antropic codec.parse freshId chunk)

end StreamChunkFormatter

namespace ResponseAdapter

/-- Embedding of `_format_as_openai_chunk`: the client-facing SSE frame. -/
def format_as_openai_chunk (formatted_chunk : String) : String :=
  "data:" ++ formatted_chunk ++ "\n\n"

/-- Embedding of the `_format_streaming_response` generator over a finite
chunk list: returns the frames yielded so far and whether the generator
raised.  A chunk formatting to a falsy (empty) string is skipped; `fids`
supplies the fresh uuid drawn for each position. -/
def format_streaming_response (codec : ChunkCodec) (fids : Nat → String)
    (dest_prov : ProviderType) : List String → List String × Bool
  | [] => ([], false)
  | chunk :: rest =>
    match StreamChunkFormatter.format codec (fids 0) chunk dest_prov with
    | none => ([], true)
    | some s =>
      let r := format_streaming_response codec (fun n => fids (n + 1)) dest_prov rest
      (if s = "" then r.1 else format_as_openai_chunk s :: r.1, r.2)

end ResponseAdapter

/-- A model endpoint as the body adapter reads it from `ModelRoute`. -/
structure ModelEndpoint where
  endpoint : String
  provider_type : ProviderType
deriving Repr, DecidableEq, Inhabited

/-- The model half of a `ModelRoute`. -/
structure ModelInfo where
  name : String
deriving Repr, DecidableEq, Inhabited

/-- A resolved route, consumed read-only by the body adapter. -/
structure ModelRoute where
  model : ModelInfo
  endpoint : ModelEndpoint
deriving Repr, DecidableEq, Inhabited

mutual

/-- Embedding of `copy.deepcopy` on a JSON value: a structural rebuild
sharing nothing with the input. -/
def deepcopyVal : JVal → JVal
  | JVal.null => JVal.null
  | JVal.bool b => JVal.bool b
  | JVal.num n => JVal.num n
  | JVal.str s => JVal.str s
  | JVal.arr xs => JVal.arr (deepcopyList xs)
  | JVal.obj fs => JVal.obj (deepcopyFields fs)

/-- Deep copy of a JSON array. -/
def deepcopyList : List JVal → List JVal
  | [] => []
  | x :: xs => deepcopyVal x :: deepcopyList xs

/-- Deep copy of an object field list. -/
def deepcopyFields : List (String × JVal) → List (String × JVal)
  | [] => []
  | (k, v) :: rest => (k, deepcopyVal v) :: deepcopyFields rest

end

namespace BodyAdapter

/-- Embedding of `_get_provider_formatted_url`: append `/v1` for the
openai and openrouter provider types, otherwise use the endpoint
verbatim. -/
def get_provider_formatted_url (model_route : ModelRoute) : String :=
  if model_route.endpoint.provider_type = ProviderType.openai ∨
     model_route.endpoint.provider_type = ProviderType.openrouter then
    model_route.endpoint.endpoint ++ "/v1"
  else model_route.endpoint.endpoint

/-- Embedding of `set_destination_info`.  The source deep-copies `data`
and mutates only the copy, so the caller's object is untouched: the first
component of the result is the caller's view of `data` after the call,
the second is the returned dict. -/
def set_destination_info (model_route : ModelRoute) (data : List (String × JVal)) :
    List (String × JVal) × List (String × JVal) :=
  let new_data := deepcopyFields data
  let new_data := dictSet new_data "model" (JVal.str model_route.model.name)
  let new_data := dictSet new_data "base_url" (JVal.str (get_provider_formatted_url model_route))
  (data, new_data)

end BodyAdapter

/-- A prompt row (`codegate.db.models.Prompt`); the fields the recording
pipeline reads and stores, with timestamps embedded as strings. -/
structure Prompt where
  id : String
  timestamp : String
  provider : String
  request : String
  type : String
deriving Repr, DecidableEq, Inhabited

/-- An output fragment and, equally, the coalesced output row
(`codegate.db.models.Output` plays both roles in the source). -/
structure Output where
  id : String
  prompt_id : String
  timestamp : String
  output : String
deriving Repr, DecidableEq, Inhabited

/-- An alert row (`codegate.db.models.Alert`). -/
structure Alert where
  id : String
  prompt_id : String
  code_snippet : String
  trigger_string : String
  trigger_type : String
  trigger_category : String
  timestamp : String
deriving Repr, DecidableEq, Inhabited

/-- The pipeline context handed to the recorder: the original request,
the ordered output fragments, the raised alerts, and the
`metadata["stored_in_db"]` idempotency flag. -/
structure PipelineContext where
  input_request : Option Prompt
  output_responses : List Output
  alerts_raised : List Alert
  metadata_stored_in_db : Bool
deriving Repr, DecidableEq, Inhabited

/-- Observable store state: the three tables plus the process-wide
critical-alert queue (`alert_queue`), each as an append-only list. -/
structure DbState where
  prompts : List Prompt
  outputs : List Output
  alerts : List Alert
  queue : List String
deriving Repr, DecidableEq, Inhabited

/-- One observable step of `record_alerts`: a successful row insert, or a
push onto the critical-alert queue.  `notify` additionally records which
alert's successful critical result triggered the push (the queue itself
receives only the message string). -/
inductive Event where
  | insert : Alert → Event
  | notify : Alert → String → Event
deriving Repr, DecidableEq, Inhabited

/-- Whether an event is a row insert. -/
def Event.isInsert : Event → Bool
  | Event.insert _ => true
  | Event.notify _ _ => false

/-- Message pushed onto the queue by a notify event, if any. -/
def Event.notifyMsg : Event → Option String
  | Event.notify _ m => some m
  | Event.insert _ => none

/-- Alert whose recorded result triggered a notify event, if any. -/
def Event.notifyTrigger : Event → Option Alert
  | Event.notify a _ => some a
  | Event.insert _ => none

/-- Apply a trace of `record_alerts` events to the store state. -/
def applyEvents (st : DbState) : List Event → DbState
  | [] => st
  | Event.insert a :: rest => applyEvents { st with alerts := st.alerts ++ [a] } rest
  | Event.notify _ m :: rest => applyEvents { st with queue := st.queue ++ [m] } rest

/-- Traces in which every row insert happens before any queue push: once a
notify event occurs, no insert event follows. -/
def insertsPrecedeNotifies : List Event → Bool
  | [] => true
  | Event.insert _ :: rest => insertsPrecedeNotifies rest
  | Event.notify _ _ :: rest => rest.all fun e => !e.isInsert

/-- The queue messages pushed by a trace, in push order. -/
def notifyMsgs (tr : List Event) : List String :=
  tr.filterMap Event.notifyMsg

/-- The alerts whose recorded results triggered the pushes of a trace, in
push order. -/
def notifyTriggers (tr : List Event) : List Alert :=
  tr.filterMap Event.notifyTrigger

namespace DbRecorder

/-- Embedding of `record_request` composed with `_insert_pydantic_model`:
`okP` is the insert-success oracle (a failed insert is caught, logged and
yields `None`); on success the returned row equals the model
(`RETURNING *`). -/
def record_request (okP : Bool) (prompt_params : Option Prompt) (st : DbState) :
    Option Prompt × DbState :=
  match prompt_params with
  | none => (none, st)
  | some p =>
    if okP then (some p, { st with prompts := st.prompts ++ [p] })
    else (none, st)

/-- Embedding of `record_outputs`: an empty fragment list is a no-op;
otherwise one row is built whose identity, prompt identity and timestamp
come from the first fragment and whose payload is `json.dumps` of the
ordered fragment payload list, and inserted (`okOut` is the
insert-success oracle). -/
def record_outputs (okOut : Bool) (outputs : List Output) (st : DbState) :
    Option Output × DbState :=
  match outputs with
  | [] => (none, st)
  | first :: rest =>
    let output_db : Output :=
      { id := first.id, prompt_id := first.prompt_id, timestamp := first.timestamp,
        output := jsonDumps (JVal.arr ((first :: rest).map fun o => JVal.str o.output)) }
    if okOut then (some output_db, { st with outputs := st.outputs ++ [output_db] })
    else (none, st)

/-- Per-task insert results of the `TaskGroup` fan-out, starting at task
index `i`: each alert gets its own insert task whose
`_insert_pydantic_model` call catches every exception internally, so the
result of task `i` is `some` the stored row exactly when its own insert
succeeds (`ok i`), independent of every sibling. -/
def alertResultsFrom (ok : Nat → Bool) (i : Nat) : List Alert → List (Option Alert)
  | [] => []
  | a :: rest => (if ok i then some a else none) :: alertResultsFrom ok (i + 1) rest

/-- Results of all insert tasks, positionally aligned with the submitted
alerts. -/
def alertResults (ok : Nat → Bool) (alerts : List Alert) : List (Option Alert) :=
  alertResultsFrom ok 0 alerts

/-- Row inserts in task completion order: `corder` lists the task indices
in the order the scheduler finished them, and each successful task
appended one row inside its own transaction. -/
def alertInsertEvents (results : List (Option Alert)) (corder : List Nat) : List Event :=
  corder.filterMap fun i =>
    match results.get? i with
    | some (some a) => some (Event.insert a)
    | _ => none

/-- Queue pushes of the submission-order loop after the `TaskGroup`
joins: one push per successful result with `trigger_category ==
"critical"`.  The pushed message interpolates the stale loop variable
`alert` — the LAST submitted alert, whose timestamp is `lastTs` — not the
alert whose result triggered the push. -/
def alertNotifyEvents (results : List (Option Alert)) (lastTs : String) : List Event :=
  results.filterMap fun r =>
    match r with
    | some a =>
      if a.trigger_category = "critical" then
        some (Event.notify a ("New alert detected: " ++ lastTs))
      else none
    | none => none

/-- Embedding of `record_alerts`.  `ok i` is the insert-success oracle for
the alert at position `i` (each insert catches its own exceptions, so one
failure never cancels or fails siblings); `corder` is the completion
order of the concurrent insert tasks, which fixes only the order of row
inserts.  After the `TaskGroup` joins, results are visited in original
submission order and, for each successful result with
`trigger_category == "critical"`, a message is pushed onto the queue. -/
def record_alerts (ok : Nat → Bool) (corder : List Nat) (alerts : List Alert) :
    List (Option Alert) × List Event :=
  if alerts.isEmpty then ([], [])
  else
    let results := alertResults ok alerts
    let lastTs := match alerts.getLast? with
      | some a => a.timestamp
      | none => ""
    (results, alertInsertEvents results corder ++ alertNotifyEvents results lastTs)

/-- State-level view of `record_alerts`: apply its event trace to the
store. -/
def record_alerts_state (ok : Nat → Bool) (corder : List Nat) (alerts : List Alert)
    (st : DbState) : List (Option Alert) × DbState :=
  let r := record_alerts ok corder alerts
  (r.1, applyEvents st r.2)

/-- Embedding of `_should_record_context`.  `fimAllows` is the verdict of
the external `fim_cache.could_store_fim_request` collaborator (class
`FimCache` is outside the provided sources). -/
def should_record_context (fimAllows : Bool) : Option PipelineContext → Bool
  | none => false
  | some c =>
    if c.metadata_stored_in_db then false
    else
      match c.input_request with
      | none => false
      | some p => if p.type ≠ "fim" then true else fimAllows

/-- Embedding of `record_context`: run the eligibility gate, then attempt
the three record steps, then set the idempotency flag.  The result pairs
the context as the caller sees it afterwards with the new store state.
The top-level `except` swallows unexpected errors, but every failure mode
of the three steps is already caught inside them. -/
def record_context (fimAllows okP okOut : Bool) (ok : Nat → Bool) (corder : List Nat)
    (ctx : Option PipelineContext) (st : DbState) : Option PipelineContext × DbState :=
  if should_record_context fimAllows ctx then
    match ctx with
    | some c =>
      let r1 := record_request okP c.input_request st
      let r2 := record_outputs okOut c.output_responses r1.2
      let r3 := record_alerts_state ok corder c.alerts_raised r2.2
      (some { c with metadata_stored_in_db := true }, r3.2)
    | none => (ctx, st)
  else (ctx, st)

end DbRecorder

/-- Spec-side definition, following the spec's words for `record_alerts`:
the successfully recorded alerts with `trigger_category == "critical"`,
in original submission order, starting at index `i`.  Used to compare the
implementation's notification trace against the specified fan-out. -/
def specCriticalFrom (ok : Nat → Bool) (i : Nat) : List Alert → List Alert
  | [] => []
  | a :: rest =>
    if ok i ∧ a.trigger_category = "critical" then a :: specCriticalFrom ok (i + 1) rest
    else specCriticalFrom ok (i + 1) rest

/-- Spec-side definition: the alerts that must each trigger exactly one
queue notification, in submission order. -/
def specCriticalNotifications (ok : Nat → Bool) (alerts : List Alert) : List Alert :=
  specCriticalFrom ok 0 alerts

/-- Fixture: a critical alert with timestamp `t1`. -/
def alertA : Alert :=
  { id := "a1", prompt_id := "p", code_snippet := "", trigger_string := "",
    trigger_type := "", trigger_category := "critical", timestamp := "t1" }

/-- Fixture: an informational alert with timestamp `t2`. -/
def alertB : Alert :=
  { id := "a2", prompt_id := "p", code_snippet := "", trigger_string := "",
    trigger_type := "", trigger_category := "info", timestamp := "t2" }

/-- Fixture: a second critical alert with timestamp `t3`. -/
def alertC : Alert :=
  { id := "a3", prompt_id := "p", code_snippet := "", trigger_string := "",
    trigger_type := "", trigger_category := "critical", timestamp := "t3" }

/-- Fixture: an empty store. -/
def emptyDb : DbState := { prompts := [], outputs := [], alerts := [], queue := [] }

/-- Fixture: a non-FIM prompt. -/
def chatPrompt : Prompt :=
  { id := "p1", timestamp := "tp", provider := "openai", request := "req", type := "chat" }

/-- Fixture: a FIM prompt. -/
def fimPrompt : Prompt :=
  { id := "p2", timestamp := "tf", provider := "openai", request := "fimreq", type := "fim" }

/-- Fixture: output fragment carrying payload `a`. -/
def fragA : Output := { id := "1", prompt_id := "p1", timestamp := "t", output := "a" }

/-- Fixture: output fragment carrying payload `b`. -/
def fragB : Output := { id := "1", prompt_id := "p1", timestamp := "t", output := "b" }

/-- Fixture: an unrecorded context holding a non-FIM prompt, two output
fragments and one critical alert. -/
def chatCtx : PipelineContext :=
  { input_request := some chatPrompt, output_responses := [fragA, fragB],
    alerts_raised := [alertA], metadata_stored_in_db := false }

/-- Fixture: an unrecorded context holding a FIM prompt. -/
def fimCtx : PipelineContext :=
  { input_request := some fimPrompt, output_responses := [fragA],
    alerts_raised := [alertA], metadata_stored_in_db := false }

/-- Fixture: an Anthropic `message_stop` wire chunk with no content
container. -/
def bareStopChunk : String := "data: \x7b\"type\": \"message_stop\"\x7d"

/-- Fixture: an Anthropic `message_stop` wire chunk carrying a non-empty
`delta` without a `text` field. -/
def stopChunk : String :=
  "data: \x7b\"type\": \"message_stop\", \"delta\": \x7b\"stop_reason\": \"end_turn\"\x7d\x7d"

/-- Fixture: the tail of `stopChunk` after the `data:` marker. -/
def stopChunkTail : String :=
  " \x7b\"type\": \"message_stop\", \"delta\": \x7b\"stop_reason\": \"end_turn\"\x7d\x7d"

/-- Fixture: the parsed fields of `stopChunk`. -/
def stopFields : List (String × JVal) :=
  [("type", JVal.str "message_stop"),
   ("delta", JVal.obj [("stop_reason", JVal.str "end_turn")])]

theorem dictGet_dictSet_same (d : List (String × JVal)) (k : String) (v : JVal) :
    dictGet (dictSet d k v) k = some v := by
  induction d with
  | nil => simp [dictSet, dictGet]
  | cons hd tl ih =>
    obtain ⟨k1, v1⟩ := hd
    by_cases hk : k1 = k
    · simp [dictSet, hk, dictGet]
    · simp [dictSet, hk, dictGet, ih]

theorem dictGet_dictSet_other (d : List (String × JVal)) (k k2 : String) (v : JVal)
    (h : k2 ≠ k) : dictGet (dictSet d k v) k2 = dictGet d k2 := by
  induction d with
  | nil => simp [dictSet, dictGet, Ne.symm h]
  | cons hd tl ih =>
    obtain ⟨k1, v1⟩ := hd
    by_cases hk : k1 = k
    · subst hk
      simp [dictSet, dictGet, Ne.symm h]
    · by_cases hk2 : k1 = k2
      · subst hk2
        simp [dictSet, hk, dictGet]
      · simp [dictSet, hk, dictGet, hk2, ih]

mutual

theorem deepcopyVal_eq : ∀ v : JVal, deepcopyVal v = v
  | JVal.null => rfl
  | JVal.bool _ => rfl
  | JVal.num _ => rfl
  | JVal.str _ => rfl
  | JVal.arr xs => by rw [deepcopyVal, deepcopyList_eq xs]
  | JVal.obj fs => by rw [deepcopyVal, deepcopyFields_eq fs]

theorem deepcopyList_eq : ∀ xs : List JVal, deepcopyList xs = xs
  | [] => rfl
  | x :: xs => by rw [deepcopyList, deepcopyVal_eq x, deepcopyList_eq xs]

theorem deepcopyFields_eq : ∀ fs : List (String × JVal), deepcopyFields fs = fs
  | [] => rfl
  | (k, v) :: fs => by rw [deepcopyFields, deepcopyVal_eq v, deepcopyFields_eq fs]

end

/-- C8: for every route and JSON-object body, the rewritten body's
`model` is the route's model name, and its `base_url` is the endpoint URL
with `/v1` appended for the openai and openrouter provider types and the
endpoint URL verbatim for ollama, anthropic and llamacpp. -/
theorem set_destination_info_targets_route (model_route : ModelRoute)
    (data : List (String × JVal)) :
    dictGet (BodyAdapter.set_destination_info model_route data).2 "model" =
      some (JVal.str model_route.model.name) ∧
    ((model_route.endpoint.provider_type = ProviderType.openai ∨
      model_route.endpoint.provider_type = ProviderType.openrouter) →
      dictGet (BodyAdapter.set_destination_info model_route data).2 "base_url" =
        some (JVal.str (model_route.endpoint.endpoint ++ "/v1"))) ∧
    ((model_route.endpoint.provider_type = ProviderType.ollama ∨
      model_route.endpoint.provider_type = ProviderType.anthropic ∨
      model_route.endpoint.provider_type = ProviderType.llamacpp) →
      dictGet (BodyAdapter.set_destination_info model_route data).2 "base_url" =
        some (JVal.str model_route.endpoint.endpoint)) := by
  refine ⟨?_, ?_, ?_⟩
  · rw [BodyAdapter.set_destination_info]
    rw [dictGet_dictSet_other _ _ _ _ (by decide), dictGet_dictSet_same]
  · intro h
    rw [BodyAdapter.set_destination_info, dictGet_dictSet_same,
        BodyAdapter.get_provider_formatted_url, if_pos h]
  · intro h
    rw [BodyAdapter.set_destination_info, dictGet_dictSet_same,
        BodyAdapter.get_provider_formatted_url, if_neg]
    rcases h with h | h | h <;> rw [h] <;> decide

/-- C8 witness: the spec's example — an openrouter endpoint `http://x`
yields base URL `http://x/v1`, an ollama endpoint `http://y` is used
verbatim, and `model` is set to the route's model name. -/
theorem set_destination_info_witness :
    dictGet (BodyAdapter.set_destination_info
        ⟨⟨"m"⟩, ⟨"http://x", ProviderType.openrouter⟩⟩ [("model", JVal.str "old")]).2
        "base_url" = some (JVal.str "http://x/v1") ∧
    dictGet (BodyAdapter.set_destination_info
        ⟨⟨"m"⟩, ⟨"http://y", ProviderType.ollama⟩⟩ []).2
        "base_url" = some (JVal.str "http://y") ∧
    dictGet (BodyAdapter.set_destination_info
        ⟨⟨"m"⟩, ⟨"http://x", ProviderType.openrouter⟩⟩ [("model", JVal.str "old")]).2
        "model" = some (JVal.str "m") :=
  ⟨(set_destination_info_targets_route ⟨⟨"m"⟩, ⟨"http://x", ProviderType.openrouter⟩⟩
      [("model", JVal.str "old")]).2.1 (Or.inr rfl),
   (set_destination_info_targets_route ⟨⟨"m"⟩, ⟨"http://y", ProviderType.ollama⟩⟩
      []).2.2 (Or.inl rfl),
   (set_destination_info_targets_route ⟨⟨"m"⟩, ⟨"http://x", ProviderType.openrouter⟩⟩
      [("model", JVal.str "old")]).1⟩

/-- C9: the rewrite works on a deep copy — after the call the caller's
original body is exactly what it was, and the copy the mutations were
applied to is a faithful structural copy of the original. -/
theorem set_destination_info_frame (model_route : ModelRoute)
    (data : List (String × JVal)) :
    (BodyAdapter.set_destination_info model_route data).1 = data ∧
    deepcopyFields data = data :=
  ⟨rfl, deepcopyFields_eq data⟩

theorem renderAnthropic_fromDict_isSome (freshId cleaned : String)
    (fs : List (String × JVal)) :
    (StreamChunkFormatter.renderAnthropic
        (StreamChunkFormatter.anthropicFromDict freshId cleaned fs)).isSome := by
  rw [StreamChunkFormatter.anthropicFromDict]
  split
  · simp [StreamChunkFormatter.renderAnthropic]
  · split
    · split <;> simp [StreamChunkFormatter.renderAnthropic]
    · simp [StreamChunkFormatter.renderAnthropic]

theorem renderAnthropic_isSome_of_split (parse : String → Option JVal)
    (freshId chunk c : String)
    (hc : StreamChunkFormatter.splitData chunk = some c) :
    (StreamChunkFormatter.renderAnthropic
        (StreamChunkFormatter.format_antropic parse freshId chunk)).isSome := by
  have hfmt : StreamChunkFormatter.format_antropic parse freshId chunk =
      match parse (pyStrip c) with
      | none => StreamChunkFormatter.AnthropicResult.passthrough (pyStrip (pyStrip c))
      | some (JVal.obj fs) => StreamChunkFormatter.anthropicFromDict freshId (pyStrip c) fs
      | some _ => StreamChunkFormatter.AnthropicResult.passthrough (pyStrip (pyStrip c)) := by
    rw [StreamChunkFormatter.format_antropic, hc]
  rw [hfmt]
  cases parse (pyStrip c) with
  | none => simp [StreamChunkFormatter.renderAnthropic]
  | some v =>
    cases v with
    | obj fs => exact renderAnthropic_fromDict_isSome freshId (pyStrip c) fs
    | null => simp [StreamChunkFormatter.renderAnthropic]
    | bool b => simp [StreamChunkFormatter.renderAnthropic]
    | num n => simp [StreamChunkFormatter.renderAnthropic]
    | str s => simp [StreamChunkFormatter.renderAnthropic]
    | arr xs => simp [StreamChunkFormatter.renderAnthropic]

/-- C1 counterexample: the claim says `format` never raises for any chunk
string, but a chunk lacking the `data:` marker makes the openai-family
formatter raise an `IndexError` (the prefix strip runs outside the `try`
block); the embedding returns `none` for a raised exception. -/
theorem format_raises_without_sse_marker :
    StreamChunkFormatter.format defaultCodec "u" "hello" ProviderType.openai = none ∧
    StreamChunkFormatter.format defaultCodec "u" "hello" ProviderType.anthropic = none := by
  constructor <;> rfl

/-- C1 amended: `format` never raises — returning a canonical chunk, the
EMPTY sentinel, or a passthrough string — for the ollama provider on
every input, and for the openai, llamacpp, openrouter and anthropic
providers on every chunk containing the `data:` marker (chunks without it
raise `IndexError`, see the counterexample). -/
theorem format_total_on_marked_input (codec : ChunkCodec) (freshId chunk : String)
    (prov : ProviderType)
    (h : prov = ProviderType.ollama ∨ (StreamChunkFormatter.splitData chunk).isSome) :
    (StreamChunkFormatter.format codec freshId chunk prov).isSome := by
  cases prov with
  | ollama => simp [StreamChunkFormatter.format]
  | openai =>
    obtain ⟨c, hc⟩ := Option.isSome_iff_exists.mp (h.resolve_left (by simp))
    rw [StreamChunkFormatter.format, StreamChunkFormatter.format_openai, hc]
    rfl
  | llamacpp =>
    obtain ⟨c, hc⟩ := Option.isSome_iff_exists.mp (h.resolve_left (by simp))
    rw [StreamChunkFormatter.format, StreamChunkFormatter.format_openai, hc]
    rfl
  | openrouter =>
    obtain ⟨c, hc⟩ := Option.isSome_iff_exists.mp (h.resolve_left (by simp))
    rw [StreamChunkFormatter.format, StreamChunkFormatter.format_openai, hc]
    rfl
  | anthropic =>
    obtain ⟨c, hc⟩ := Option.isSome_iff_exists.mp (h.resolve_left (by simp))
    rw [StreamChunkFormatter.format]
    exact renderAnthropic_isSome_of_split codec.parse freshId chunk c hc

/-- C1 witness: concrete marked inputs (one of them malformed JSON) and a
markerless ollama input all format without raising. -/
theorem format_total_witness :
    (StreamChunkFormatter.format defaultCodec "u" "data: notjson"
        ProviderType.openai).isSome ∧
    (StreamChunkFormatter.format defaultCodec "u" "data: \x7b\"x\": 1\x7d"
        ProviderType.anthropic).isSome ∧
    (StreamChunkFormatter.format defaultCodec "u" "notjson"
        ProviderType.ollama).isSome :=
  ⟨format_total_on_marked_input defaultCodec "u" "data: notjson" ProviderType.openai
      (Or.inr (by decide)),
   format_total_on_marked_input defaultCodec "u" "data: \x7b\"x\": 1\x7d"
      ProviderType.anthropic (Or.inr (by decide)),
   format_total_on_marked_input defaultCodec "u" "notjson" ProviderType.ollama
      (Or.inl rfl)⟩

/-- C10: for every provider type, a chunk whose formatted result is the
empty string contributes no SSE frame to the client stream — the adapter
silently drops it. -/
theorem empty_formatted_chunk_not_framed (codec : ChunkCodec) (fids : Nat → String)
    (prov : ProviderType) (chunk : String) (rest : List String)
    (h : StreamChunkFormatter.format codec (fids 0) chunk prov = some "") :
    ResponseAdapter.format_streaming_response codec fids prov (chunk :: rest) =
      ResponseAdapter.format_streaming_response codec (fun n => fids (n + 1)) prov rest := by
  rw [ResponseAdapter.format_streaming_response, h]
  simp

/-- C10 witness: an OpenAI-compatible chunk whose payload after the
`data:` prefix is whitespace-only formats to the empty string, and a
stream consisting of it yields no frames. -/
theorem empty_formatted_chunk_witness :
    StreamChunkFormatter.format defaultCodec "u" "data:  \n" ProviderType.openai =
      some "" ∧
    ResponseAdapter.format_streaming_response defaultCodec (fun _ => "u")
      ProviderType.openai ["data:  \n"] = ([], false) :=
  ⟨by decide,
   Eq.trans
     (empty_formatted_chunk_not_framed defaultCodec (fun _ => "u") ProviderType.openai
       "data:  \n" [] (by decide))
     rfl⟩

/-- C5 counterexample: the claim says a `message_stop` chunk with no
content yields a canonical chunk with finish-reason `stop`, but the code
returns the EMPTY sentinel for it: with neither `delta` nor
`content_block` present, the content container is falsy and the
formatter skips the chunk before ever building a canonical chunk. -/
theorem anthropic_message_stop_yields_empty :
    StreamChunkFormatter.format_antropic jsonParse "u" bareStopChunk =
      StreamChunkFormatter.AnthropicResult.empty ∧
    StreamChunkFormatter.format defaultCodec "u" bareStopChunk ProviderType.anthropic =
      some "" := by
  exact ⟨rfl, rfl⟩

/-- C5 amended: an Anthropic chunk whose parsed JSON has type
`message_stop` AND a truthy content container (a `delta` or
`content_block` dict) without a `text` field yields a canonical chunk
with finish-reason `stop` and empty text; a chunk whose content container
is falsy (in particular one with neither `delta` nor `content_block`)
yields EMPTY, and the Stream Adapter emits no SSE frame for an
EMPTY-formatted chunk. -/
theorem anthropic_formatter_semantics (parse : String → Option JVal) (freshId : String) :
    (∀ chunk c fs cfs,
      StreamChunkFormatter.splitData chunk = some c →
      parse (pyStrip c) = some (JVal.obj fs) →
      dictGet fs "type" = some (JVal.str "message_stop") →
      StreamChunkFormatter.contentContainer fs = JVal.obj cfs →
      (JVal.obj cfs).isFalsy = false →
      dictGet cfs "text" = none →
      StreamChunkFormatter.format_antropic parse freshId chunk =
        StreamChunkFormatter.AnthropicResult.canonical
          { id := "anthropic-chat-" ++ freshId, model := "anthropic-muxed-model",
            object := "chat.completion.chunk",
            choices := [{ finish_reason := some "stop", index := 0,
                          delta := { content := some "", role := "assistant" } }] }) ∧
    (∀ chunk c fs,
      StreamChunkFormatter.splitData chunk = some c →
      parse (pyStrip c) = some (JVal.obj fs) →
      (StreamChunkFormatter.contentContainer fs).isFalsy = true →
      StreamChunkFormatter.format_antropic parse freshId chunk =
        StreamChunkFormatter.AnthropicResult.empty) ∧
    (∀ codec fids chunk rest,
      StreamChunkFormatter.format_antropic (ChunkCodec.parse codec) (fids 0) chunk =
        StreamChunkFormatter.AnthropicResult.empty →
      ResponseAdapter.format_streaming_response codec fids ProviderType.anthropic
          (chunk :: rest) =
        ResponseAdapter.format_streaming_response codec (fun n => fids (n + 1))
          ProviderType.anthropic rest) := by
  refine ⟨?_, ?_, ?_⟩
  · intro chunk c fs cfs hsplit hparse htype hcont hfal htext
    have hfmt : StreamChunkFormatter.format_antropic parse freshId chunk =
        StreamChunkFormatter.anthropicFromDict freshId (pyStrip c) fs := by
      rw [StreamChunkFormatter.format_antropic, hsplit]
      simp [hparse]
    rw [hfmt, StreamChunkFormatter.anthropicFromDict, htype, hcont]
    simp [hfal, htext]
  · intro chunk c fs hsplit hparse hfal
    have hfmt : StreamChunkFormatter.format_antropic parse freshId chunk =
        StreamChunkFormatter.anthropicFromDict freshId (pyStrip c) fs := by
      rw [StreamChunkFormatter.format_antropic, hsplit]
      simp [hparse]
    rw [hfmt, StreamChunkFormatter.anthropicFromDict]
    simp [hfal]
  · intro codec fids chunk rest hempty
    have h : StreamChunkFormatter.format codec (fids 0) chunk ProviderType.anthropic =
        some "" := by
      rw [StreamChunkFormatter.format, hempty]
      rfl
    rw [ResponseAdapter.format_streaming_response, h]
    simp

/-- C5 witness: a `message_stop` chunk with a non-empty `delta` lacking
`text` yields the canonical stop chunk with empty text; the bare
`message_stop` chunk yields EMPTY and is dropped from the stream. -/
theorem anthropic_formatter_witness :
    StreamChunkFormatter.format_antropic jsonParse "u" stopChunk =
      StreamChunkFormatter.AnthropicResult.canonical
        { id := "anthropic-chat-u", model := "anthropic-muxed-model",
          object := "chat.completion.chunk",
          choices := [{ finish_reason := some "stop", index := 0,
                        delta := { content := some "", role := "assistant" } }] } ∧
    StreamChunkFormatter.format_antropic jsonParse "u" bareStopChunk =
      StreamChunkFormatter.AnthropicResult.empty ∧
    ResponseAdapter.format_streaming_response defaultCodec (fun _ => "u")
      ProviderType.anthropic [bareStopChunk] = ([], false) :=
  ⟨(anthropic_formatter_semantics jsonParse "u").1 stopChunk stopChunkTail stopFields
      [("stop_reason", JVal.str "end_turn")] rfl rfl rfl rfl rfl rfl,
   (anthropic_formatter_semantics jsonParse "u").2.1 bareStopChunk
      " \x7b\"type\": \"message_stop\"\x7d" [("type", JVal.str "message_stop")] rfl rfl rfl,
   Eq.trans
     ((anthropic_formatter_semantics jsonParse "u").2.2 defaultCodec (fun _ => "u")
        bareStopChunk [] rfl)
     rfl⟩

theorem notifyMsgs_append (xs ys : List Event) :
    notifyMsgs (xs ++ ys) = notifyMsgs xs ++ notifyMsgs ys := by
  simp [notifyMsgs, List.filterMap_append]

theorem notifyTriggers_append (xs ys : List Event) :
    notifyTriggers (xs ++ ys) = notifyTriggers xs ++ notifyTriggers ys := by
  simp [notifyTriggers, List.filterMap_append]

theorem insertEvents_all_inserts (res : List (Option Alert)) (corder : List Nat) :
    ∀ e ∈ DbRecorder.alertInsertEvents res corder, e.isInsert = true := by
  intro e he
  rw [DbRecorder.alertInsertEvents] at he
  obtain ⟨i, hi, hfe⟩ := List.mem_filterMap.mp he
  cases h : res.get? i with
  | none => rw [h] at hfe; cases hfe
  | some o =>
    cases o with
    | none => rw [h] at hfe; cases hfe
    | some a =>
      rw [h] at hfe
      cases hfe
      rfl

theorem notifyEvents_all_notifies (res : List (Option Alert)) (ts : String) :
    ∀ e ∈ DbRecorder.alertNotifyEvents res ts, e.isInsert = false := by
  intro e he
  rw [DbRecorder.alertNotifyEvents] at he
  obtain ⟨r, hr, hfe⟩ := List.mem_filterMap.mp he
  cases r with
  | none => cases hfe
  | some a =>
    have hfe2 : (if a.trigger_category = "critical" then
        some (Event.notify a ("New alert detected: " ++ ts)) else none) = some e := hfe
    by_cases hc : a.trigger_category = "critical"
    · rw [if_pos hc] at hfe2
      cases hfe2
      rfl
    · rw [if_neg hc] at hfe2
      cases hfe2

theorem notifyMsgs_of_all_inserts (xs : List Event) (h : ∀ e ∈ xs, e.isInsert = true) :
    notifyMsgs xs = [] := by
  rw [notifyMsgs, List.filterMap_eq_nil_iff]
  intro e he
  cases e with
  | insert a => rfl
  | notify a m => cases h _ he

theorem notifyTriggers_of_all_inserts (xs : List Event) (h : ∀ e ∈ xs, e.isInsert = true) :
    notifyTriggers xs = [] := by
  rw [notifyTriggers, List.filterMap_eq_nil_iff]
  intro e he
  cases e with
  | insert a => rfl
  | notify a m => cases h _ he

theorem insertsPrecedeNotifies_append (xs ys : List Event)
    (hx : ∀ e ∈ xs, e.isInsert = true) (hy : ∀ e ∈ ys, e.isInsert = false) :
    insertsPrecedeNotifies (xs ++ ys) = true := by
  induction xs with
  | nil =>
    rw [List.nil_append]
    cases ys with
    | nil => rfl
    | cons e rest =>
      cases e with
      | insert a => cases hy (Event.insert a) (by simp)
      | notify a m =>
        rw [insertsPrecedeNotifies, List.all_eq_true]
        intro x hx2
        rw [hy x (by simp [hx2])]
        rfl
  | cons e rest ih =>
    cases e with
    | notify a m => cases hx (Event.notify a m) (by simp)
    | insert a =>
      rw [List.cons_append, insertsPrecedeNotifies]
      exact ih fun x hx2 => hx x (by simp [hx2])

theorem alertResultsFrom_get (ok : Nat → Bool) :
    ∀ (alerts : List Alert) (i j : Nat),
      (DbRecorder.alertResultsFrom ok j alerts).get? i =
        (alerts.get? i).map fun a => if ok (j + i) then some a else none := by
  intro alerts
  induction alerts with
  | nil => intro i j; simp [DbRecorder.alertResultsFrom]
  | cons a rest ih =>
    intro i j
    cases i with
    | zero => simp [DbRecorder.alertResultsFrom]
    | succ i2 =>
      simp only [DbRecorder.alertResultsFrom, List.get?_cons_succ]
      rw [ih i2 (j + 1)]
      have h : j + 1 + i2 = j + (i2 + 1) := by omega
      rw [h]

theorem notifyTriggers_notifyEvents (ok : Nat → Bool) (ts : String) :
    ∀ (alerts : List Alert) (i : Nat),
      notifyTriggers (DbRecorder.alertNotifyEvents
          (DbRecorder.alertResultsFrom ok i alerts) ts) =
        specCriticalFrom ok i alerts := by
  intro alerts
  induction alerts with
  | nil => intro i; rfl
  | cons a rest ih =>
    intro i
    rw [DbRecorder.alertResultsFrom, DbRecorder.alertNotifyEvents, List.filterMap_cons,
        specCriticalFrom]
    cases hok : ok i with
    | false =>
      simp only [hok, Bool.false_eq_true, if_false, false_and]
      exact ih (i + 1)
    | true =>
      simp only [hok, if_true, true_and]
      by_cases hc : a.trigger_category = "critical"
      · simp only [if_pos hc]
        exact congrArg (List.cons a) (ih (i + 1))
      · simp only [if_neg hc]
        exact ih (i + 1)

theorem applyEvents_queue : ∀ (tr : List Event) (st : DbState),
    (applyEvents st tr).queue = st.queue ++ notifyMsgs tr := by
  intro tr
  induction tr with
  | nil => intro st; simp [applyEvents, notifyMsgs]
  | cons e rest ih =>
    intro st
    cases e with
    | insert a =>
      rw [applyEvents, ih]
      rfl
    | notify a m =>
      rw [applyEvents, ih]
      simp [notifyMsgs, List.filterMap_cons, Event.notifyMsg]

/-- C4: alert fan-out.  For every success oracle, completion orders and
alert list: (a) each task's result depends only on its own insert's
success — one failure neither cancels nor fails siblings; (b) in the
event trace every row insert precedes every queue push; (c) the pushes
are triggered by exactly the successfully recorded critical alerts, one
each, in original submission order; (d) the pushed messages do not depend
on the completion order; (e) the queue receives exactly those
notifications, appended in that order. -/
theorem record_alerts_fanout (ok : Nat → Bool) (corder corder2 : List Nat)
    (alerts : List Alert) (st : DbState) (i : Nat) :
    ((DbRecorder.record_alerts ok corder alerts).1.get? i =
        (alerts.get? i).map fun a => if ok i then some a else none) ∧
    insertsPrecedeNotifies (DbRecorder.record_alerts ok corder alerts).2 = true ∧
    notifyTriggers (DbRecorder.record_alerts ok corder alerts).2 =
        specCriticalNotifications ok alerts ∧
    notifyMsgs (DbRecorder.record_alerts ok corder2 alerts).2 =
        notifyMsgs (DbRecorder.record_alerts ok corder alerts).2 ∧
    (applyEvents st (DbRecorder.record_alerts ok corder alerts).2).queue =
        st.queue ++ notifyMsgs (DbRecorder.record_alerts ok corder alerts).2 := by
  cases alerts with
  | nil =>
    refine ⟨?_, rfl, rfl, rfl, ?_⟩
    · simp [DbRecorder.record_alerts]
    · simp [DbRecorder.record_alerts, applyEvents, notifyMsgs]
  | cons a0 rest =>
    have hne : (a0 :: rest).isEmpty = false := rfl
    have hra : ∀ co : List Nat, DbRecorder.record_alerts ok co (a0 :: rest) =
        (DbRecorder.alertResults ok (a0 :: rest),
         DbRecorder.alertInsertEvents (DbRecorder.alertResults ok (a0 :: rest)) co ++
           DbRecorder.alertNotifyEvents (DbRecorder.alertResults ok (a0 :: rest))
             (match (a0 :: rest).getLast? with
              | some a => a.timestamp
              | none => "")) := by
      intro co
      rw [DbRecorder.record_alerts, hne]
      rfl
    refine ⟨?_, ?_, ?_, ?_, ?_⟩
    · rw [hra corder]
      have h0 := alertResultsFrom_get ok (a0 :: rest) i 0
      simpa using h0
    · rw [hra corder]
      exact insertsPrecedeNotifies_append _ _
        (insertEvents_all_inserts _ _) (notifyEvents_all_notifies _ _)
    · rw [hra corder, notifyTriggers_append,
          notifyTriggers_of_all_inserts _ (insertEvents_all_inserts _ _),
          List.nil_append]
      exact notifyTriggers_notifyEvents ok _ (a0 :: rest) 0
    · rw [hra corder, hra corder2, notifyMsgs_append, notifyMsgs_append,
          notifyMsgs_of_all_inserts _ (insertEvents_all_inserts _ _),
          notifyMsgs_of_all_inserts _ (insertEvents_all_inserts _ _)]
    · rw [hra corder, applyEvents_queue]

/-- C2: the claim says each queue notification carries the timestamp of
the recorded alert that triggered it; the code instead interpolates the
stale loop variable, i.e. the LAST alert of the list.  Concretely, with
alerts `[alertA (critical, t1), alertB (info, t2)]`, the single
notification — triggered by alertA — carries alertB's timestamp `t2`,
which differs from alertA's `t1`. -/
theorem record_alerts_stale_timestamp :
    DbRecorder.record_alerts (fun _ => true) [0, 1] [alertA, alertB] =
      ([some alertA, some alertB],
       [Event.insert alertA, Event.insert alertB,
        Event.notify alertA ("New alert detected: " ++ alertB.timestamp)]) ∧
    (alertA.timestamp == alertB.timestamp) = false := by
  refine ⟨rfl, by decide⟩

/-- C3: at-most-once recording.  If the eligibility check short-circuits,
`record_context` is a strict no-op (in particular the idempotency flag is
not set); if it passes, the returned context carries the flag set after
the three record steps, and every later call on that context — whatever
the oracles then say — is a no-op. -/
theorem record_context_idempotent (fa fa2 okP okOut okP2 okOut2 : Bool)
    (ok ok2 : Nat → Bool) (corder corder2 : List Nat)
    (ctx : Option PipelineContext) (st : DbState) :
    (DbRecorder.should_record_context fa ctx = false →
      DbRecorder.record_context fa okP okOut ok corder ctx st = (ctx, st)) ∧
    (∀ c, ctx = some c → DbRecorder.should_record_context fa ctx = true →
      (DbRecorder.record_context fa okP okOut ok corder ctx st).1 =
        some { c with metadata_stored_in_db := true } ∧
      DbRecorder.record_context fa2 okP2 okOut2 ok2 corder2
          (DbRecorder.record_context fa okP okOut ok corder ctx st).1
          (DbRecorder.record_context fa okP okOut ok corder ctx st).2 =
        DbRecorder.record_context fa okP okOut ok corder ctx st) := by
  constructor
  · intro h
    rw [DbRecorder.record_context.eq_def, h]
    rfl
  · intro c hctx hs
    subst hctx
    have h1 : DbRecorder.record_context fa okP okOut ok corder (some c) st =
        (some { c with metadata_stored_in_db := true },
         (DbRecorder.record_alerts_state ok corder c.alerts_raised
           (DbRecorder.record_outputs okOut c.output_responses
             (DbRecorder.record_request okP c.input_request st).2).2).2) := by
      rw [DbRecorder.record_context.eq_def, hs]
      rfl
    rw [h1]
    refine ⟨rfl, ?_⟩
    rw [DbRecorder.record_context.eq_def]
    have h2 : DbRecorder.should_record_context fa2
        (some { c with metadata_stored_in_db := true }) = false := rfl
    rw [h2]
    rfl

/-- C3 witness: recording an eligible non-FIM context sets the flag, and
recording the result again changes nothing. -/
theorem record_context_idempotent_witness :
    (DbRecorder.record_context true true true (fun _ => true) [0]
        (some chatCtx) emptyDb).1 =
      some { chatCtx with metadata_stored_in_db := true } ∧
    DbRecorder.record_context true true true (fun _ => true) [0]
        (DbRecorder.record_context true true true (fun _ => true) [0]
          (some chatCtx) emptyDb).1
        (DbRecorder.record_context true true true (fun _ => true) [0]
          (some chatCtx) emptyDb).2 =
      DbRecorder.record_context true true true (fun _ => true) [0]
        (some chatCtx) emptyDb ∧
    DbRecorder.record_context true true true (fun _ => true) [0]
        (some { chatCtx with metadata_stored_in_db := true }) emptyDb =
      (some { chatCtx with metadata_stored_in_db := true }, emptyDb) :=
  ⟨((record_context_idempotent true true true true true true (fun _ => true)
      (fun _ => true) [0] [0] (some chatCtx) emptyDb).2 chatCtx rfl rfl).1,
   ((record_context_idempotent true true true true true true (fun _ => true)
      (fun _ => true) [0] [0] (some chatCtx) emptyDb).2 chatCtx rfl rfl).2,
   (record_context_idempotent true true true true true true (fun _ => true)
      (fun _ => true) [0] [0]
      (some { chatCtx with metadata_stored_in_db := true }) emptyDb).1 rfl⟩

/-- C6: output coalescing.  An empty fragment list is a no-op; a
non-empty one, when the insert succeeds, appends exactly one row to the
outputs table (and touches nothing else), whose identity, prompt identity
and timestamp come from the first fragment and whose payload is the JSON
serialization of all fragments' payloads in arrival order. -/
theorem record_outputs_coalesced (okOut : Bool) (outputs : List Output) (st : DbState) :
    (DbRecorder.record_outputs okOut [] st = (none, st)) ∧
    (∀ first rest, outputs = first :: rest → okOut = true →
      DbRecorder.record_outputs okOut outputs st =
        (some { id := first.id, prompt_id := first.prompt_id,
                timestamp := first.timestamp,
                output := jsonDumps (JVal.arr
                  ((first :: rest).map fun o => JVal.str o.output)) },
         { st with outputs := st.outputs ++
            [{ id := first.id, prompt_id := first.prompt_id,
               timestamp := first.timestamp,
               output := jsonDumps (JVal.arr
                 ((first :: rest).map fun o => JVal.str o.output)) }] })) := by
  constructor
  · rfl
  · intro first rest houts hok
    subst houts
    subst hok
    rfl

/-- C6 witness: fragments with payloads `a` then `b` yield one row whose
payload is the JSON list which parses back to `["a", "b"]`. -/
theorem record_outputs_witness :
    DbRecorder.record_outputs true [fragA, fragB] emptyDb =
      (some { id := fragA.id, prompt_id := fragA.prompt_id,
              timestamp := fragA.timestamp,
              output := jsonDumps (JVal.arr
                ([fragA, fragB].map fun o => JVal.str o.output)) },
       { emptyDb with outputs := emptyDb.outputs ++
          [{ id := fragA.id, prompt_id := fragA.prompt_id,
             timestamp := fragA.timestamp,
             output := jsonDumps (JVal.arr
               ([fragA, fragB].map fun o => JVal.str o.output)) }] }) ∧
    jsonDumps (JVal.arr ([fragA, fragB].map fun o => JVal.str o.output)) =
      "[\"a\", \"b\"]" ∧
    jsonParse "[\"a\", \"b\"]" = some (JVal.arr [JVal.str "a", JVal.str "b"]) :=
  ⟨(record_outputs_coalesced true [fragA, fragB] emptyDb).2 fragA [fragB] rfl rfl,
   rfl, rfl⟩

/-- C7: the FIM gate.  A context holding a non-FIM request that is not
yet recorded passes the eligibility check whatever the dedup cache would
say; a context holding a FIM request the dedup cache rejects is never
persisted — `record_context` leaves the store (prompts, outputs, alerts
and queue) untouched. -/
theorem fim_gate_spec (fa : Bool) (c : PipelineContext) (p : Prompt)
    (okP okOut : Bool) (ok : Nat → Bool) (corder : List Nat) (st : DbState) :
    (c.metadata_stored_in_db = false → c.input_request = some p → p.type ≠ "fim" →
      DbRecorder.should_record_context fa (some c) = true) ∧
    (c.input_request = some p → p.type = "fim" → fa = false →
      DbRecorder.record_context fa okP okOut ok corder (some c) st = (some c, st)) := by
  constructor
  · intro hflag hreq htype
    rw [DbRecorder.should_record_context, hflag, hreq]
    simp [htype]
  · intro hreq htype hfa
    have hs : DbRecorder.should_record_context fa (some c) = false := by
      rw [DbRecorder.should_record_context, hreq]
      by_cases hflag : c.metadata_stored_in_db
      · simp [hflag]
      · simp [hflag, htype, hfa]
    rw [DbRecorder.record_context, hs]
    rfl

/-- C7 witness: with a dedup cache that would reject everything, a
non-FIM context still passes the gate, while a FIM context it rejects is
left unrecorded with the store unchanged. -/
theorem fim_gate_witness :
    DbRecorder.should_record_context false (some chatCtx) = true ∧
    DbRecorder.record_context false true true (fun _ => true) [0] (some fimCtx)
        emptyDb = (some fimCtx, emptyDb) :=
  ⟨(fim_gate_spec false chatCtx chatPrompt true true (fun _ => true) [0] emptyDb).1
      rfl rfl (by decide),
   (fim_gate_spec false fimCtx fimPrompt true true (fun _ => true) [0] emptyDb).2
      rfl rfl rfl⟩
